import Mathlib

/-! Todo list manager: ordering of lists and todos, and the list-collection handlers.

A shallow embedding of `lib/sort.js` and of the list handlers of `todos.js`.

* A JavaScript string is the sequence of its UTF-16 code units, so that `<` on
  strings is the lexicographic order on code units.
* `String.prototype.toLowerCase` belongs to the language runtime; every
  definition that calls it receives it as the argument `toLowerCase`, and the
  theorems hold for every such function.
* `Array.prototype.sort` is stable; `arraySort` is a stable insertion sort that
  places `a` before `b` when `comparefn a b ≤ 0`.
* The entity classes `Todo` and `TodoList` (`lib/todo.js`, `lib/todolist.js`)
  are used by the source through `title`, `isDone()`, the constructor and
  `setTitle`; the sort functions only see the interface `Item`.
-/

namespace TodoApp

/-! ## Strings -/

/-- A JavaScript string value: its UTF-16 code units. -/
abbrev JSString := List Nat

/-- Lowercasing of the code units `A`..`Z`, every other code unit kept: what
`toLowerCase` does on ASCII text. Used to evaluate the definitions on concrete
ASCII titles. -/
def asciiToLowerCase (s : JSString) : JSString :=
  s.map (fun c => if 65 ≤ c ∧ c ≤ 90 then c + 32 else c)

/-- Code units matched by the regular expression class `\s`. -/
def isWhitespace (c : Nat) : Bool :=
  c == 9 || c == 10 || c == 11 || c == 12 || c == 13 || c == 32 || c == 160 ||
  c == 5760 || (8192 ≤ c && c ≤ 8202) || c == 8232 || c == 8233 || c == 8239 ||
  c == 8287 || c == 12288 || c == 65279

/-- The `trim` sanitizer: leading whitespace removed, then trailing whitespace. -/
def trim (s : JSString) : JSString :=
  (s.dropWhile isWhitespace).rdropWhile isWhitespace

/-! ## Entities -/

/-- What the sort module reads from an element: its `title` and `isDone()`. -/
class Item (α : Type) where
  /-- The `title` property. -/
  title : α → JSString
  /-- The result of the method call `isDone()`. -/
  isDone : α → Bool

/-- A single task. -/
structure Todo where
  /-- Identifier of the todo. -/
  id : Nat
  /-- Title of the todo. -/
  title : JSString
  /-- Completion flag. -/
  done : Bool
deriving DecidableEq, Repr

/-- A named, ordered collection of todos. -/
structure TodoList where
  /-- Identifier of the list. -/
  id : Nat
  /-- Title of the list. -/
  title : JSString
  /-- The todos, in insertion order. -/
  todos : List Todo
deriving DecidableEq, Repr

/-- Modelled from the spec: `Todo.isDone()` of `lib/todo.js`, which returns the
current `done` flag. -/
def Todo.isDone (todo : Todo) : Bool := todo.done

/-- Modelled from the spec: `TodoList.isDone()` of `lib/todolist.js`, true iff
the list is non-empty and every todo is done. -/
def TodoList.isDone (todoList : TodoList) : Bool :=
  !todoList.todos.isEmpty && todoList.todos.all Todo.isDone

instance : Item Todo := ⟨Todo.title, Todo.isDone⟩

instance : Item TodoList := ⟨TodoList.title, TodoList.isDone⟩

/-! ## lib/sort.js -/

/-- Source `compareByTitle`: compares the lowercased titles, `-1`, `1` or `0`. -/
def compareByTitle {α : Type} [Item α] (toLowerCase : JSString → JSString)
    (itemA itemB : α) : Int :=
  let titleA := toLowerCase (Item.title itemA)
  let titleB := toLowerCase (Item.title itemB)
  if titleA < titleB then -1
  else if titleA > titleB then 1
  else 0

/-- Builtin `Array.prototype.sort(comparefn)` on the elements of an array: a stable
sort, `a` staying before `b` when `comparefn a b ≤ 0`. -/
def arraySort {α : Type} (comparefn : α → α → Int) (arr : List α) : List α :=
  arr.insertionSort (fun a b => comparefn a b ≤ 0)

/-- Source `sortTodoLists`: the not-done lists sorted by title, then the done lists
sorted by title. -/
def sortTodoLists {α : Type} [Item α] (toLowerCase : JSString → JSString)
    (todoLists : List α) : List α :=
  let undone := todoLists.filter (fun todoList => !Item.isDone todoList)
  let done := todoLists.filter (fun todoList => Item.isDone todoList)
  let undone := arraySort (compareByTitle toLowerCase) undone
  let done := arraySort (compareByTitle toLowerCase) done
  [] ++ undone ++ done

/-- Source `sortTodos`: the not-done todos of a list sorted by title, then the done
todos sorted by title. -/
def sortTodos (toLowerCase : JSString → JSString) (todoList : TodoList) : List Todo :=
  let undone := todoList.todos.filter (fun todo => !todo.isDone)
  let done := todoList.todos.filter (fun todo => todo.isDone)
  let undone := arraySort (compareByTitle toLowerCase) undone
  let done := arraySort (compareByTitle toLowerCase) done
  [] ++ undone ++ done

/-! ## The sort functions on an array store

Arrays are mutable objects: `filter` and `concat` allocate a new array, `sort`
rewrites the array it is called on. A store holds the contents of every
allocated array, an array being referred to by its position in the store. -/

/-- The contents of all allocated arrays. -/
abbrev Store (α : Type) := List (List α)

/-- The elements of the array at `ref`. -/
def Store.read {α : Type} (s : Store α) (ref : Nat) : List α := s.getD ref []

/-- Allocation of a new array with the given elements. -/
def Store.alloc {α : Type} (s : Store α) (arr : List α) : Store α × Nat :=
  (s ++ [arr], s.length)

/-- Overwriting of the elements of the array at `ref`. -/
def Store.write {α : Type} (s : Store α) (ref : Nat) (arr : List α) : Store α :=
  s.set ref arr

/-- Builtin `arr.filter(p)`: a new array. -/
def Store.filter {α : Type} (s : Store α) (ref : Nat) (p : α → Bool) : Store α × Nat :=
  s.alloc ((s.read ref).filter p)

/-- Builtin `arr.sort(comparefn)`: the array at `ref` is sorted in place. -/
def Store.sort {α : Type} (s : Store α) (ref : Nat) (comparefn : α → α → Int) : Store α :=
  s.write ref (arraySort comparefn (s.read ref))

/-- Builtin `arr.concat(a, b)`: a new array. -/
def Store.concat {α : Type} (s : Store α) (ref a b : Nat) : Store α × Nat :=
  s.alloc (s.read ref ++ s.read a ++ s.read b)

/-- Source `sortTodoLists` with its arrays in the store: `todoLists` refers to the
argument, the result is the final store and the reference of the returned array. -/
def sortTodoListsInStore {α : Type} [Item α] (toLowerCase : JSString → JSString)
    (s : Store α) (todoLists : Nat) : Store α × Nat :=
  let undone := s.filter todoLists (fun todoList => !Item.isDone todoList)
  let done := undone.1.filter todoLists (fun todoList => Item.isDone todoList)
  let s1 := done.1.sort undone.2 (compareByTitle toLowerCase)
  let s2 := s1.sort done.2 (compareByTitle toLowerCase)
  let empty := s2.alloc []
  empty.1.concat empty.2 undone.2 done.2

/-- A todo list object whose `todos` property refers to an array in the store. -/
structure TodoListObject where
  /-- Identifier of the list. -/
  id : Nat
  /-- Title of the list. -/
  title : JSString
  /-- Reference of the array of todos. -/
  todos : Nat
deriving DecidableEq, Repr

/-- Source `sortTodos` with its arrays in the store. -/
def sortTodosInStore (toLowerCase : JSString → JSString)
    (s : Store Todo) (todoList : TodoListObject) : Store Todo × Nat :=
  let undone := s.filter todoList.todos (fun todo => !todo.isDone)
  let done := undone.1.filter todoList.todos (fun todo => todo.isDone)
  let s1 := done.1.sort undone.2 (compareByTitle toLowerCase)
  let s2 := s1.sort done.2 (compareByTitle toLowerCase)
  let empty := s2.alloc []
  empty.1.concat empty.2 undone.2 done.2

/-! ## todos.js: the handlers of the list collection

The session collection is the sequence of todo lists. A request parameter
`todoListId` is the number the handler obtains with `Number(...)`; a parameter
that denotes no natural number equals no id and behaves as an absent id.
The character count of the length validators belongs to the validation
library and is the argument `len`. -/

/-- Errors raised by the entities. -/
inductive CoreError where
  | validationError
deriving DecidableEq, Repr

/-- Modelled from the spec: the constructor of `TodoList` (`lib/todolist.js`):
a new list with the fresh id, the trimmed title and no todos; it fails with a
validation error if the title is empty or exceeds 100 characters after
trimming. -/
def TodoList.create (len : JSString → Nat) (freshId : Nat) (title : JSString) :
    Except CoreError TodoList :=
  if 1 ≤ len (trim title) ∧ len (trim title) ≤ 100 then
    .ok { id := freshId, title := trim title, todos := [] }
  else .error .validationError

/-- Modelled from the spec: `TodoList.setTitle` (`lib/todolist.js`): renames
the list, subject to the same length validation. -/
def TodoList.setTitle (len : JSString → Nat) (todoList : TodoList) (title : JSString) :
    Except CoreError TodoList :=
  if 1 ≤ len (trim title) ∧ len (trim title) ≤ 100 then
    .ok { todoList with title := title }
  else .error .validationError

/-- What a handler answers. -/
inductive Response where
  /-- Call `res.render(view, ...)` with the flashed error messages. -/
  | render (view : String) (errors : List String)
  /-- Call `res.redirect(location)` after flashing a success message. -/
  | redirect (location : String) (success : String)
  /-- Call `next(new Error(message))`: the error handler answers 404 with the message. -/
  | nextError (message : String)
  /-- An exception thrown by an entity, handed to the error handler. -/
  | thrown (e : CoreError)
deriving DecidableEq, Repr

/-- The `isLength` validator with `min` and an optional `max`. -/
def isLength (len : JSString → Nat) (str : JSString) (min : Nat) (max : Option Nat) : Bool :=
  decide (min ≤ len str) &&
    (match max with
     | none => true
     | some m => decide (len str ≤ m))

/-- The custom validator of both title chains: no list of the session has
exactly this title. -/
def titleIsUnique (todoLists : List TodoList) (title : JSString) : Bool :=
  let duplicate := todoLists.find? (fun list => list.title == title)
  duplicate.isNone

/-- The validation chain of `POST /lists` on the trimmed title: the messages of
the validators that fail, in order. -/
def newListErrors (len : JSString → Nat) (todoLists : List TodoList) (title : JSString) :
    List String :=
  (if isLength len title 1 none then [] else ["The list title is required."]) ++
  (if isLength len title 0 (some 100) then []
    else ["List title must be between 1 and 100 characters."]) ++
  (if titleIsUnique todoLists title then [] else ["List title must be unique."])

/-- The validation chain of `POST /lists/:todoListId/edit` on the trimmed title. -/
def editListErrors (len : JSString → Nat) (todoLists : List TodoList) (title : JSString) :
    List String :=
  (if isLength len title 1 none then [] else ["The list title is required."]) ++
  (if isLength len title 0 (some 100) then []
    else ["List title must be between 1 and 100 characters"]) ++
  (if titleIsUnique todoLists title then [] else ["List title must be unique"])

/-- Source `loadTodoList`: the first list with the id, if any. -/
def loadTodoList (todoListId : Nat) (todoLists : List TodoList) : Option TodoList :=
  todoLists.find? (fun todoList => todoList.id == todoListId)

/-- The collection after the first list with the id has been replaced: the
effect of mutating the object that `loadTodoList` returned. -/
def replaceLoaded (todoListId : Nat) (updated : TodoList) : List TodoList → List TodoList
  | [] => []
  | todoList :: rest =>
    if todoList.id == todoListId then updated :: rest
    else todoList :: replaceLoaded todoListId updated rest

/-- Handler of `POST /lists`: the response and the collection after the request.
`freshId` is the id the process-wide counter hands out. -/
def postLists (len : JSString → Nat) (freshId : Nat) (todoLists : List TodoList)
    (todoListTitle : JSString) : Response × List TodoList :=
  let title := trim todoListTitle
  let errors := newListErrors len todoLists title
  if !errors.isEmpty then
    (.render "new-list" errors, todoLists)
  else
    match TodoList.create len freshId title with
    | .ok todoList => (.redirect "/lists" "The todo list has been created.", todoLists ++ [todoList])
    | .error e => (.thrown e, todoLists)

/-- Handler of `POST /lists/:todoListId/edit`: the response and the collection after the
request. -/
def postEditList (len : JSString → Nat) (todoLists : List TodoList) (todoListId : Nat)
    (todoListTitle : JSString) : Response × List TodoList :=
  let title := trim todoListTitle
  let errors := editListErrors len todoLists title
  match loadTodoList todoListId todoLists with
  | none => (.nextError "Not found.", todoLists)
  | some todoList =>
    if !errors.isEmpty then
      (.render "edit-list" errors, todoLists)
    else
      match todoList.setTitle len title with
      | .ok renamed =>
        (.redirect ("/lists/" ++ toString todoListId) "Todo list updated.",
          replaceLoaded todoListId renamed todoLists)
      | .error e => (.thrown e, todoLists)

/-- The JavaScript values that occur in the test `!index === -1`. -/
inductive JSValue where
  | boolean (b : Bool)
  | number (n : Int)
deriving DecidableEq, Repr

/-- The operator `!`: a number is falsy exactly when it is zero (an index is
never `NaN`). -/
def JSValue.not : JSValue → JSValue
  | .boolean b => .boolean (!b)
  | .number n => .boolean (n == 0)

/-- The operator `===`: values of different types are never strictly equal. -/
def JSValue.strictEquals : JSValue → JSValue → Bool
  | .boolean a, .boolean b => a == b
  | .number a, .number b => a == b
  | _, _ => false

/-- Builtin `Array.prototype.findIndex`: the first index whose element satisfies `p`,
or `-1`. -/
def findIndex {α : Type} (p : α → Bool) : List α → Int
  | [] => -1
  | x :: xs =>
    if p x then 0
    else
      let i := findIndex p xs
      if i < 0 then -1 else i + 1

/-- Builtin `arr.splice(start, deleteCount)`: the elements left in the array. A
negative `start` counts from the end of the array. -/
def splice {α : Type} (arr : List α) (start : Int) (deleteCount : Nat) : List α :=
  let len : Int := arr.length
  let actualStart : Nat :=
    if start < 0 then (max (len + start) 0).toNat else (min start len).toNat
  let actualDeleteCount : Nat := min deleteCount (arr.length - actualStart)
  arr.take actualStart ++ arr.drop (actualStart + actualDeleteCount)

/-- Handler of `POST /lists/:todoListId/destroy`: the response and the collection after
the request. -/
def postDestroyList (todoLists : List TodoList) (todoListId : Nat) :
    Response × List TodoList :=
  let index := findIndex (fun todoList : TodoList => todoList.id == todoListId) todoLists
  if (JSValue.number index).not.strictEquals (.number (-1)) then
    (.nextError "Not found.", todoLists)
  else
    (.redirect "/lists" "Todo List deleted!", splice todoLists index 1)

/-! ## Concrete inputs -/

/-- The done list titled `Apple` (one todo, done). -/
def appleDone : TodoList := ⟨1, [65, 112, 112, 108, 101], [⟨1, [109], true⟩]⟩

/-- The list titled `apple` without todos, hence not done. -/
def appleEmpty : TodoList := ⟨2, [97, 112, 112, 108, 101], []⟩

/-- The list titled `APPLE` without todos, hence not done. -/
def appleUpper : TodoList := ⟨3, [65, 80, 80, 76, 69], []⟩

/-- A list whose todos are `Apple` (done) followed by `apple` (not done). -/
def fruit : TodoList :=
  ⟨4, [102], [⟨1, [65, 112, 112, 108, 101], true⟩, ⟨2, [97, 112, 112, 108, 101], false⟩]⟩

/-- A store whose only array holds the collection `Apple` (done), `apple`. -/
def listsStore : Store TodoList := [[appleDone, appleEmpty]]

/-- A store whose only array holds the todos of `fruit`. -/
def todosStore : Store Todo := [fruit.todos]

/-- The list object `fruit` with its todos at reference 0. -/
def fruitObject : TodoListObject := ⟨4, [102], 0⟩

/-! ## The comparator -/

section SortLemmas

variable {α : Type} [Item α] (toLowerCase : JSString → JSString)

theorem compareByTitle_le_zero_iff (a b : α) :
    compareByTitle toLowerCase a b ≤ 0 ↔
      toLowerCase (Item.title a) ≤ toLowerCase (Item.title b) := by
  unfold compareByTitle
  simp only
  by_cases h1 : toLowerCase (Item.title a) < toLowerCase (Item.title b)
  · simp [h1, le_of_lt h1]
  · by_cases h2 : toLowerCase (Item.title a) > toLowerCase (Item.title b)
    · simp [h1, h2, not_le.mpr h2]
    · simp [h1, h2, not_lt.mp h2]

theorem compareByTitle_isTotal :
    IsTotal α (fun a b => compareByTitle toLowerCase a b ≤ 0) :=
  ⟨fun a b => by
    simp only [compareByTitle_le_zero_iff]
    exact le_total _ _⟩

theorem compareByTitle_isTrans :
    IsTrans α (fun a b => compareByTitle toLowerCase a b ≤ 0) :=
  ⟨fun a b c hab hbc => by
    simp only [compareByTitle_le_zero_iff] at *
    exact le_trans hab hbc⟩

theorem arraySort_sorted (arr : List α) :
    (arraySort (compareByTitle toLowerCase) arr).Pairwise
      (fun a b => toLowerCase (Item.title a) ≤ toLowerCase (Item.title b)) := by
  haveI := @compareByTitle_isTotal α _ toLowerCase
  haveI := @compareByTitle_isTrans α _ toLowerCase
  have h := List.sorted_insertionSort (fun a b : α => compareByTitle toLowerCase a b ≤ 0) arr
  unfold arraySort
  exact List.Pairwise.imp (fun {a b} hab => (compareByTitle_le_zero_iff toLowerCase a b).mp hab) h

theorem mem_arraySort {β : Type} (comparefn : β → β → Int) (arr : List β) (x : β) :
    x ∈ arraySort comparefn arr ↔ x ∈ arr := by
  unfold arraySort
  exact List.mem_insertionSort _

theorem arraySort_perm {β : Type} (comparefn : β → β → Int) (arr : List β) :
    (arraySort comparefn arr).Perm arr := by
  unfold arraySort
  exact List.perm_insertionSort _ _

theorem arraySort_arraySort (arr : List α) :
    arraySort (compareByTitle toLowerCase) (arraySort (compareByTitle toLowerCase) arr) =
      arraySort (compareByTitle toLowerCase) arr := by
  haveI := @compareByTitle_isTotal α _ toLowerCase
  haveI := @compareByTitle_isTrans α _ toLowerCase
  unfold arraySort
  exact (List.sorted_insertionSort
    (fun a b : α => compareByTitle toLowerCase a b ≤ 0) arr).insertionSort_eq

theorem sortTodoLists_eq (todoLists : List α) :
    sortTodoLists toLowerCase todoLists =
      arraySort (compareByTitle toLowerCase)
          (todoLists.filter (fun todoList => !Item.isDone todoList)) ++
        arraySort (compareByTitle toLowerCase)
          (todoLists.filter (fun todoList => Item.isDone todoList)) := by
  simp [sortTodoLists]

theorem sortTodos_eq (todoList : TodoList) :
    sortTodos toLowerCase todoList = sortTodoLists toLowerCase todoList.todos := rfl

theorem isDone_of_mem_undone (todoLists : List α) (x : α)
    (hx : x ∈ arraySort (compareByTitle toLowerCase)
      (todoLists.filter (fun todoList => !Item.isDone todoList))) :
    Item.isDone x = false := by
  rw [mem_arraySort, List.mem_filter] at hx
  simpa using hx.2

theorem isDone_of_mem_done (todoLists : List α) (x : α)
    (hx : x ∈ arraySort (compareByTitle toLowerCase)
      (todoLists.filter (fun todoList => Item.isDone todoList))) :
    Item.isDone x = true := by
  rw [mem_arraySort, List.mem_filter] at hx
  exact hx.2

/-- Pairwise form of both ordering properties of the result. -/
theorem sortTodoLists_pairwise (todoLists : List α) :
    (sortTodoLists toLowerCase todoLists).Pairwise (fun a b =>
      (Item.isDone a = true → Item.isDone b = true) ∧
      (Item.isDone a = Item.isDone b →
        toLowerCase (Item.title a) ≤ toLowerCase (Item.title b))) := by
  rw [sortTodoLists_eq, List.pairwise_append]
  refine ⟨?_, ?_, ?_⟩
  · refine List.Pairwise.imp_of_mem ?_ (arraySort_sorted toLowerCase _)
    intro a b ha _ hab
    have hda := isDone_of_mem_undone toLowerCase todoLists a ha
    exact ⟨fun h => by simp [hda] at h, fun _ => hab⟩
  · refine List.Pairwise.imp_of_mem ?_ (arraySort_sorted toLowerCase _)
    intro a b _ hb hab
    have hdb := isDone_of_mem_done toLowerCase todoLists b hb
    exact ⟨fun _ => hdb, fun _ => hab⟩
  · intro a ha b hb
    have hda := isDone_of_mem_undone toLowerCase todoLists a ha
    have hdb := isDone_of_mem_done toLowerCase todoLists b hb
    exact ⟨fun _ => hdb, fun h => by simp [hda, hdb] at h⟩

theorem pair_sublist_arraySort {β : Type} (comparefn : β → β → Int) (a b : β) (arr : List β)
    (hab : comparefn a b ≤ 0) (h : [a, b].Sublist arr) :
    [a, b].Sublist (arraySort comparefn arr) := by
  unfold arraySort
  exact @List.pair_sublist_insertionSort β (fun a b => comparefn a b ≤ 0) _ a b arr hab h

theorem filter_undone_sorted_parts (todoLists : List α) :
    List.filter (fun todoList => !Item.isDone todoList)
      (arraySort (compareByTitle toLowerCase)
          (todoLists.filter (fun todoList => !Item.isDone todoList)) ++
        arraySort (compareByTitle toLowerCase)
          (todoLists.filter (fun todoList => Item.isDone todoList))) =
      arraySort (compareByTitle toLowerCase)
          (todoLists.filter (fun todoList => !Item.isDone todoList)) := by
  have hU : List.filter (fun todoList => !Item.isDone todoList)
      (arraySort (compareByTitle toLowerCase)
          (todoLists.filter (fun todoList => !Item.isDone todoList))) =
      arraySort (compareByTitle toLowerCase)
          (todoLists.filter (fun todoList => !Item.isDone todoList)) :=
    List.filter_eq_self.mpr
      (fun x hx => by simp [isDone_of_mem_undone toLowerCase todoLists x hx])
  have hD : List.filter (fun todoList => !Item.isDone todoList)
      (arraySort (compareByTitle toLowerCase)
          (todoLists.filter (fun todoList => Item.isDone todoList))) = [] :=
    List.filter_eq_nil_iff.mpr
      (fun x hx => by simp [isDone_of_mem_done toLowerCase todoLists x hx])
  rw [List.filter_append, hU, hD, List.append_nil]

theorem filter_done_sorted_parts (todoLists : List α) :
    List.filter (fun todoList => Item.isDone todoList)
      (arraySort (compareByTitle toLowerCase)
          (todoLists.filter (fun todoList => !Item.isDone todoList)) ++
        arraySort (compareByTitle toLowerCase)
          (todoLists.filter (fun todoList => Item.isDone todoList))) =
      arraySort (compareByTitle toLowerCase)
          (todoLists.filter (fun todoList => Item.isDone todoList)) := by
  have hU : List.filter (fun todoList => Item.isDone todoList)
      (arraySort (compareByTitle toLowerCase)
          (todoLists.filter (fun todoList => !Item.isDone todoList))) = [] :=
    List.filter_eq_nil_iff.mpr
      (fun x hx => by simp [isDone_of_mem_undone toLowerCase todoLists x hx])
  have hD : List.filter (fun todoList => Item.isDone todoList)
      (arraySort (compareByTitle toLowerCase)
          (todoLists.filter (fun todoList => Item.isDone todoList))) =
      arraySort (compareByTitle toLowerCase)
          (todoLists.filter (fun todoList => Item.isDone todoList)) :=
    List.filter_eq_self.mpr
      (fun x hx => by simp [isDone_of_mem_done toLowerCase todoLists x hx])
  rw [List.filter_append, hU, hD, List.nil_append]

end SortLemmas

/-! ## Ordering of the result -/

/-- C1: in the result of `sortTodoLists`, a list that is not done stands at a
smaller index than every list that is done. -/
theorem sortTodoLists_undone_before_done {α : Type} [Item α]
    (toLowerCase : JSString → JSString) (todoLists : List α) (i j : Nat)
    (hi : i < (sortTodoLists toLowerCase todoLists).length)
    (hj : j < (sortTodoLists toLowerCase todoLists).length)
    (hundone : Item.isDone ((sortTodoLists toLowerCase todoLists)[i]) = false)
    (hdone : Item.isDone ((sortTodoLists toLowerCase todoLists)[j]) = true) :
    i < j := by
  by_contra hlt
  rcases Nat.lt_or_eq_of_le (Nat.le_of_not_lt hlt) with hji | hji
  · have h := List.pairwise_iff_getElem.mp (sortTodoLists_pairwise toLowerCase todoLists)
      j i hj hi hji
    rw [h.1 hdone] at hundone
    exact Bool.noConfusion hundone
  · subst hji
    rw [hdone] at hundone
    exact Bool.noConfusion hundone

/-- Witness of C1 on the collection `Apple` (done), `apple` (not done). -/
theorem sortTodoLists_undone_before_done_witness :
    Item.isDone ((sortTodoLists asciiToLowerCase [appleDone, appleEmpty])[0]) = false ∧
    Item.isDone ((sortTodoLists asciiToLowerCase [appleDone, appleEmpty])[1]) = true ∧
    0 < 1 :=
  ⟨by decide, by decide,
    sortTodoLists_undone_before_done asciiToLowerCase [appleDone, appleEmpty] 0 1
      (by decide) (by decide) (by decide) (by decide)⟩

/-- C2: within the not-done part and within the done part of the result of
`sortTodoLists`, the lowercased titles are non-decreasing: of two lists with the
same `isDone()` value, the one at the smaller index has the smaller or equal
lowercased title. -/
theorem sortTodoLists_titles_nondecreasing {α : Type} [Item α]
    (toLowerCase : JSString → JSString) (todoLists : List α) (i j : Nat)
    (hij : i < j) (hj : j < (sortTodoLists toLowerCase todoLists).length)
    (hsame : Item.isDone ((sortTodoLists toLowerCase todoLists)[i]) =
      Item.isDone ((sortTodoLists toLowerCase todoLists)[j])) :
    toLowerCase (Item.title ((sortTodoLists toLowerCase todoLists)[i])) ≤
      toLowerCase (Item.title ((sortTodoLists toLowerCase todoLists)[j])) :=
  (List.pairwise_iff_getElem.mp (sortTodoLists_pairwise toLowerCase todoLists)
    i j (Nat.lt_trans hij hj) hj hij).2 hsame

/-- Witness of C2 on the collection `apple`, `Apple` (done), `APPLE`. -/
theorem sortTodoLists_titles_nondecreasing_witness :
    sortTodoLists asciiToLowerCase [appleEmpty, appleDone, appleUpper] =
      [appleEmpty, appleUpper, appleDone] ∧
    asciiToLowerCase (Item.title
        ((sortTodoLists asciiToLowerCase [appleEmpty, appleDone, appleUpper])[0])) ≤
      asciiToLowerCase (Item.title
        ((sortTodoLists asciiToLowerCase [appleEmpty, appleDone, appleUpper])[1])) :=
  ⟨by decide,
    sortTodoLists_titles_nondecreasing asciiToLowerCase
      [appleEmpty, appleDone, appleUpper] 0 1 (by decide) (by decide) (by decide)⟩

/-! ## Stability -/

theorem pair_sublist_sortTodoLists {α : Type} [Item α]
    (toLowerCase : JSString → JSString) (todoLists : List α) (a b : α)
    (hdone : Item.isDone a = Item.isDone b)
    (htitle : toLowerCase (Item.title a) = toLowerCase (Item.title b))
    (hsub : [a, b].Sublist todoLists) :
    [a, b].Sublist (sortTodoLists toLowerCase todoLists) := by
  have hab : compareByTitle toLowerCase a b ≤ 0 :=
    (compareByTitle_le_zero_iff toLowerCase a b).mpr (le_of_eq htitle)
  rw [sortTodoLists_eq]
  cases hb : Item.isDone b with
  | false =>
    have ha : Item.isDone a = false := hdone.trans hb
    have hf := hsub.filter (fun todoList => !Item.isDone todoList)
    simp only [List.filter, ha, hb, Bool.not_false] at hf
    exact (pair_sublist_arraySort _ a b _ hab hf).trans (List.sublist_append_left _ _)
  | true =>
    have ha : Item.isDone a = true := hdone.trans hb
    have hf := hsub.filter (fun todoList => Item.isDone todoList)
    simp only [List.filter, ha, hb] at hf
    exact (pair_sublist_arraySort _ a b _ hab hf).trans (List.sublist_append_right _ _)

/-- C3 as stated fails: `Apple` (done) precedes `apple` (not done) in the input,
their lowercased titles are equal, and the result has them in the other order;
likewise for the todos given to `sortTodos`. -/
theorem sort_swaps_equal_titles_across_parts :
    asciiToLowerCase appleDone.title = asciiToLowerCase appleEmpty.title ∧
    [appleDone, appleEmpty].Sublist [appleDone, appleEmpty] ∧
    sortTodoLists asciiToLowerCase [appleDone, appleEmpty] = [appleEmpty, appleDone] ∧
    ¬ [appleDone, appleEmpty].Sublist (sortTodoLists asciiToLowerCase [appleDone, appleEmpty]) ∧
    sortTodos asciiToLowerCase fruit =
      [⟨2, [97, 112, 112, 108, 101], false⟩, ⟨1, [65, 112, 112, 108, 101], true⟩] ∧
    ¬ fruit.todos.Sublist (sortTodos asciiToLowerCase fruit) := by
  decide

/-- C3, amended: two items with the same `isDone()` value and equal lowercased
titles keep their relative order: if `a` precedes `b` in the input of
`sortTodoLists` (in the todos of the list given to `sortTodos`), then `a`
precedes `b` in the result. -/
theorem sort_stable_within_part {α : Type} [Item α]
    (toLowerCase : JSString → JSString) (todoLists : List α) (a b : α)
    (todoList : TodoList) (x y : Todo) :
    (Item.isDone a = Item.isDone b →
      toLowerCase (Item.title a) = toLowerCase (Item.title b) →
      [a, b].Sublist todoLists →
      [a, b].Sublist (sortTodoLists toLowerCase todoLists)) ∧
    (x.isDone = y.isDone →
      toLowerCase x.title = toLowerCase y.title →
      [x, y].Sublist todoList.todos →
      [x, y].Sublist (sortTodos toLowerCase todoList)) :=
  ⟨pair_sublist_sortTodoLists toLowerCase todoLists a b,
    fun hdone htitle hsub => by
      rw [sortTodos_eq]
      exact pair_sublist_sortTodoLists toLowerCase todoList.todos x y hdone htitle hsub⟩

/-- Witness of the amended C3: `apple` and `APPLE`, both not done, keep their
order around the done list `Apple`. -/
theorem sort_stable_within_part_witness :
    [appleEmpty, appleUpper].Sublist
        (sortTodoLists asciiToLowerCase [appleEmpty, appleDone, appleUpper]) ∧
    [(⟨1, [97], false⟩ : Todo), ⟨2, [65], false⟩].Sublist
        (sortTodos asciiToLowerCase
          ⟨5, [102], [⟨1, [97], false⟩, ⟨3, [66], true⟩, ⟨2, [65], false⟩]⟩) :=
  ⟨(sort_stable_within_part asciiToLowerCase [appleEmpty, appleDone, appleUpper]
      appleEmpty appleUpper fruit ⟨1, [97], false⟩ ⟨2, [65], false⟩).1
      (by decide) (by decide) (by decide),
    (sort_stable_within_part asciiToLowerCase [appleEmpty, appleDone, appleUpper]
      appleEmpty appleUpper
      ⟨5, [102], [⟨1, [97], false⟩, ⟨3, [66], true⟩, ⟨2, [65], false⟩]⟩
      ⟨1, [97], false⟩ ⟨2, [65], false⟩).2
      (by decide) (by decide) (by decide)⟩

/-! ## Idempotence, refinement, permutation -/

/-- C4: `sortTodoLists` is idempotent. -/
theorem sortTodoLists_idempotent {α : Type} [Item α]
    (toLowerCase : JSString → JSString) (todoLists : List α) :
    sortTodoLists toLowerCase (sortTodoLists toLowerCase todoLists) =
      sortTodoLists toLowerCase todoLists := by
  rw [sortTodoLists_eq toLowerCase (sortTodoLists toLowerCase todoLists),
    sortTodoLists_eq toLowerCase todoLists]
  rw [filter_undone_sorted_parts, filter_done_sorted_parts]
  rw [arraySort_arraySort, arraySort_arraySort]

/-- C8: `sortTodos` of a list is `sortTodoLists` applied to the list's todos;
in it a done todo is never followed by a todo that is not done, and todos with
the same done state are ordered by lowercased title. -/
theorem sortTodos_eq_sortTodoLists_todos (toLowerCase : JSString → JSString)
    (todoList : TodoList) :
    sortTodos toLowerCase todoList = sortTodoLists toLowerCase todoList.todos ∧
    (sortTodos toLowerCase todoList).Pairwise (fun a b =>
      (a.isDone = true → b.isDone = true) ∧
      (a.isDone = b.isDone → toLowerCase a.title ≤ toLowerCase b.title)) :=
  ⟨rfl, sortTodoLists_pairwise toLowerCase todoList.todos⟩

/-- C10: the result of `sortTodoLists` is a permutation of its input, with the
same length and the same number of occurrences of every element; likewise
`sortTodos` and the todos of the list. -/
theorem sort_perm {α : Type} [Item α] [DecidableEq α]
    (toLowerCase : JSString → JSString) (todoLists : List α) (todoList : TodoList) :
    ((sortTodoLists toLowerCase todoLists).Perm todoLists ∧
      (sortTodoLists toLowerCase todoLists).length = todoLists.length ∧
      ∀ x, (sortTodoLists toLowerCase todoLists).count x = todoLists.count x) ∧
    ((sortTodos toLowerCase todoList).Perm todoList.todos ∧
      (sortTodos toLowerCase todoList).length = todoList.todos.length ∧
      ∀ x, (sortTodos toLowerCase todoList).count x = todoList.todos.count x) := by
  have key : ∀ {β : Type} [Item β] (l : List β), (sortTodoLists toLowerCase l).Perm l := by
    intro β _ l
    rw [sortTodoLists_eq]
    refine List.Perm.trans (List.Perm.append (arraySort_perm _ _) (arraySort_perm _ _)) ?_
    refine List.Perm.trans (List.perm_append_comm) ?_
    have h := List.filter_append_perm (fun todoList : β => Item.isDone todoList) l
    exact h
  have hT : (sortTodos toLowerCase todoList).Perm todoList.todos := by
    rw [sortTodos_eq]
    exact key todoList.todos
  exact ⟨⟨key todoLists, (key todoLists).length_eq, fun x => (key todoLists).count_eq x⟩,
    ⟨hT, hT.length_eq, fun x => hT.count_eq x⟩⟩

/-! ## The array store -/

theorem Store.read_append_of_lt {β : Type} (s t : Store β) (ref : Nat)
    (h : ref < s.length) : Store.read (s ++ t) ref = s.read ref := by
  simp [Store.read, List.getD_eq_getElem?_getD, List.getElem?_append_left h]

theorem Store.read_append_zero {β : Type} (s t : Store β) (a : List β) :
    Store.read (s ++ a :: t) s.length = a := by
  unfold Store.read
  rw [List.getD_eq_getElem?_getD, List.getElem?_append_right (Nat.le_refl _)]
  simp

theorem Store.read_append_one {β : Type} (s t : Store β) (a b : List β) :
    Store.read (s ++ a :: b :: t) (s.length + 1) = b := by
  unfold Store.read
  rw [List.getD_eq_getElem?_getD, List.getElem?_append_right (Nat.le_add_right _ _)]
  simp

theorem Store.read_append_two {β : Type} (s t : Store β) (a b c : List β) :
    Store.read (s ++ a :: b :: c :: t) (s.length + 2) = c := by
  unfold Store.read
  rw [List.getD_eq_getElem?_getD, List.getElem?_append_right (Nat.le_add_right _ _)]
  simp

theorem Store.write_append_zero {β : Type} (s t : Store β) (a x : List β) :
    Store.write (s ++ a :: t) s.length x = s ++ x :: t := by
  simp [Store.write, List.set_append_right]

theorem Store.write_append_one {β : Type} (s t : Store β) (a b x : List β) :
    Store.write (s ++ a :: b :: t) (s.length + 1) x = s ++ a :: x :: t := by
  simp [Store.write, List.set_append_right]

/-- The store after `sortTodoLists`: four new arrays, the two sorted parts, the
empty array literal and the returned array; the arrays allocated before are
untouched. -/
theorem sortTodoListsInStore_eq {α : Type} [Item α] (toLowerCase : JSString → JSString)
    (s : Store α) (todoLists : Nat) (hvalid : todoLists < s.length) :
    sortTodoListsInStore toLowerCase s todoLists =
      (s ++ [arraySort (compareByTitle toLowerCase)
              ((s.read todoLists).filter (fun todoList => !Item.isDone todoList)),
            arraySort (compareByTitle toLowerCase)
              ((s.read todoLists).filter (fun todoList => Item.isDone todoList)),
            [],
            sortTodoLists toLowerCase (s.read todoLists)],
        s.length + 3) := by
  have h1 : ∀ a : List α, Store.read (s ++ [a]) todoLists = s.read todoLists :=
    fun a => Store.read_append_of_lt s [a] todoLists hvalid
  have hlen : ∀ a b c : List α, (s ++ [a, b, c]).length = s.length + 3 := by
    intro a b c
    simp
  have happ : ∀ a b : List α, s ++ [a] ++ [b] = s ++ [a, b] := by
    intro a b
    simp
  have happ3 : ∀ a b c : List α, s ++ [a, b] ++ [c] = s ++ [a, b, c] := by
    intro a b c
    simp
  have happ4 : ∀ a b c d : List α, s ++ [a, b, c] ++ [d] = s ++ [a, b, c, d] := by
    intro a b c d
    simp
  have hlen1 : ∀ a : List α, (s ++ [a]).length = s.length + 1 := by
    intro a
    simp
  have hlen2 : ∀ a b : List α, (s ++ [a, b]).length = s.length + 2 := by
    intro a b
    simp
  simp only [sortTodoListsInStore, Store.filter, Store.sort, Store.concat, Store.alloc, h1,
    happ, hlen1, Store.read_append_zero, Store.write_append_zero, Store.read_append_one,
    Store.write_append_one, happ3, hlen2, Store.read_append_two, happ4, hlen,
    sortTodoLists_eq, List.nil_append]

theorem sortTodosInStore_eq (toLowerCase : JSString → JSString) (s : Store Todo)
    (todoList : TodoListObject) :
    sortTodosInStore toLowerCase s todoList =
      sortTodoListsInStore toLowerCase s todoList.todos := rfl

/-- C9: `sortTodoLists` and `sortTodos` do not mutate their inputs: after the
call the array passed to `sortTodoLists` (the `todos` array of the list passed
to `sortTodos`) holds the same elements, with their titles and done states, in
the same order, as does every other array allocated before the call; the sorted
sequence is returned in a newly allocated array. -/
theorem sort_leaves_input_unchanged {α : Type} [Item α] (toLowerCase : JSString → JSString)
    (s : Store α) (todoLists : Nat) (st : Store Todo) (todoList : TodoListObject)
    (hvalid : todoLists < s.length) (hvalidTodos : todoList.todos < st.length) :
    ((sortTodoListsInStore toLowerCase s todoLists).1.read todoLists = s.read todoLists ∧
      (∀ ref, ref < s.length →
        (sortTodoListsInStore toLowerCase s todoLists).1.read ref = s.read ref) ∧
      s.length ≤ (sortTodoListsInStore toLowerCase s todoLists).2 ∧
      (sortTodoListsInStore toLowerCase s todoLists).1.read
          (sortTodoListsInStore toLowerCase s todoLists).2 =
        sortTodoLists toLowerCase (s.read todoLists)) ∧
    ((sortTodosInStore toLowerCase st todoList).1.read todoList.todos =
        st.read todoList.todos ∧
      (∀ ref, ref < st.length →
        (sortTodosInStore toLowerCase st todoList).1.read ref = st.read ref) ∧
      st.length ≤ (sortTodosInStore toLowerCase st todoList).2 ∧
      (sortTodosInStore toLowerCase st todoList).1.read
          (sortTodosInStore toLowerCase st todoList).2 =
        sortTodos toLowerCase ⟨todoList.id, todoList.title, st.read todoList.todos⟩) := by
  have key : ∀ {β : Type} [Item β] (h : Store β) (r : Nat), r < h.length →
      (∀ ref, ref < h.length →
        (sortTodoListsInStore toLowerCase h r).1.read ref = h.read ref) ∧
      h.length ≤ (sortTodoListsInStore toLowerCase h r).2 ∧
      (sortTodoListsInStore toLowerCase h r).1.read (sortTodoListsInStore toLowerCase h r).2 =
        sortTodoLists toLowerCase (h.read r) := by
    intro β _ h r hr
    rw [sortTodoListsInStore_eq toLowerCase h r hr]
    refine ⟨fun ref href => Store.read_append_of_lt h _ ref href, Nat.le_add_right _ _, ?_⟩
    unfold Store.read
    rw [List.getD_eq_getElem?_getD, List.getElem?_append_right (Nat.le_add_right _ _)]
    simp
  obtain ⟨k1, k2, k3⟩ := key s todoLists hvalid
  obtain ⟨j1, j2, j3⟩ := key st todoList.todos hvalidTodos
  refine ⟨⟨k1 todoLists hvalid, k1, k2, k3⟩, ⟨?_, ?_, ?_, ?_⟩⟩
  · rw [sortTodosInStore_eq]
    exact j1 todoList.todos hvalidTodos
  · rw [sortTodosInStore_eq]
    exact j1
  · rw [sortTodosInStore_eq]
    exact j2
  · rw [sortTodosInStore_eq, sortTodos_eq]
    exact j3

/-- Witness of C9 on a store holding the collection `Apple` (done), `apple`,
and on a store holding the todos of `fruit`. -/
theorem sort_leaves_input_unchanged_witness :
    (sortTodoListsInStore asciiToLowerCase listsStore 0).1.read 0 =
      [appleDone, appleEmpty] ∧
    (sortTodoListsInStore asciiToLowerCase listsStore 0).1.read
        (sortTodoListsInStore asciiToLowerCase listsStore 0).2 = [appleEmpty, appleDone] ∧
    (sortTodosInStore asciiToLowerCase todosStore fruitObject).1.read fruitObject.todos =
      fruit.todos :=
  ⟨(sort_leaves_input_unchanged asciiToLowerCase listsStore 0 todosStore fruitObject
      (by decide) (by decide)).1.1,
    by decide,
    (sort_leaves_input_unchanged asciiToLowerCase listsStore 0 todosStore fruitObject
      (by decide) (by decide)).2.1⟩

/-! ## Trimming -/

theorem dropWhile_append_singleton {β : Type} (p : β → Bool) (a : β) (ha : p a = false) :
    ∀ l : List β, (l ++ [a]).dropWhile p = l.dropWhile p ++ [a]
  | [] => by simp [List.dropWhile, ha]
  | x :: l => by
    cases hx : p x with
    | false => simp [List.dropWhile, hx]
    | true =>
      simp only [List.cons_append, List.dropWhile, hx]
      exact dropWhile_append_singleton p a ha l

theorem rdropWhile_cons_of_neg {β : Type} (p : β → Bool) (a : β) (ha : p a = false)
    (l : List β) : (a :: l).rdropWhile p = a :: l.rdropWhile p := by
  unfold List.rdropWhile
  rw [List.reverse_cons, dropWhile_append_singleton p a ha, List.reverse_append]
  rfl

theorem trim_trim (s : JSString) : trim (trim s) = trim s := by
  unfold trim
  cases h : s.dropWhile isWhitespace with
  | nil => simp [List.rdropWhile]
  | cons a t =>
    have ha : isWhitespace a = false := by
      have := List.head_dropWhile_not isWhitespace s (by simp [h])
      simpa [h] using this
    rw [rdropWhile_cons_of_neg _ a ha, List.dropWhile_cons_of_neg (by simp [ha]),
      rdropWhile_cons_of_neg _ a ha, List.rdropWhile_idempotent]

/-! ## The title validators -/

theorem titleIsUnique_eq_true_iff (todoLists : List TodoList) (title : JSString) :
    titleIsUnique todoLists title = true ↔ ∀ l ∈ todoLists, l.title ≠ title := by
  unfold titleIsUnique
  simp [List.find?_eq_none]

theorem titleIsUnique_eq_false_iff (todoLists : List TodoList) (title : JSString) :
    titleIsUnique todoLists title = false ↔ ∃ l ∈ todoLists, l.title = title := by
  rw [← Bool.not_eq_true, titleIsUnique_eq_true_iff]
  push_neg
  rfl

theorem editListErrors_of_valid (len : JSString → Nat) (todoLists : List TodoList)
    (title : JSString) (hvalid : 1 ≤ len title ∧ len title ≤ 100) :
    editListErrors len todoLists title =
      if titleIsUnique todoLists title then [] else ["List title must be unique"] := by
  simp [editListErrors, isLength, hvalid.1, hvalid.2]

theorem titleIsUnique_of_editListErrors_nil (len : JSString → Nat) (todoLists : List TodoList)
    (title : JSString) (h : editListErrors len todoLists title = []) :
    titleIsUnique todoLists title = true := by
  unfold editListErrors at h
  by_contra hu
  simp [hu] at h

theorem titleIsUnique_of_newListErrors_nil (len : JSString → Nat) (todoLists : List TodoList)
    (title : JSString) (h : newListErrors len todoLists title = []) :
    titleIsUnique todoLists title = true := by
  unfold newListErrors at h
  by_contra hu
  simp [hu] at h

theorem loadTodoList_of_mem (todoLists : List TodoList) (L : TodoList) (hL : L ∈ todoLists) :
    ∃ found, loadTodoList L.id todoLists = some found := by
  unfold loadTodoList
  cases h : todoLists.find? (fun todoList => todoList.id == L.id) with
  | some found => exact ⟨found, rfl⟩
  | none =>
    rw [List.find?_eq_none] at h
    have := h L hL
    simp at this

/-! ## Replacing the loaded list -/

theorem mem_replaceLoaded (todoListId : Nat) (updated : TodoList) :
    ∀ (todoLists : List TodoList) (y : TodoList),
      y ∈ replaceLoaded todoListId updated todoLists → y = updated ∨ y ∈ todoLists
  | [], y, h => by simp [replaceLoaded] at h
  | x :: rest, y, h => by
    unfold replaceLoaded at h
    split at h
    · rcases List.mem_cons.mp h with h | h
      · exact Or.inl h
      · exact Or.inr (List.mem_cons_of_mem _ h)
    · rcases List.mem_cons.mp h with h | h
      · exact Or.inr (h ▸ List.mem_cons_self _ _)
      · rcases mem_replaceLoaded todoListId updated rest y h with h | h
        · exact Or.inl h
        · exact Or.inr (List.mem_cons_of_mem _ h)

theorem nodup_titles_replaceLoaded (todoListId : Nat) (updated : TodoList) :
    ∀ (todoLists : List TodoList),
      (todoLists.map TodoList.title).Nodup →
      (∀ l ∈ todoLists, l.title ≠ updated.title) →
      ((replaceLoaded todoListId updated todoLists).map TodoList.title).Nodup
  | [], _, _ => by simp [replaceLoaded]
  | x :: rest, hnodup, hfresh => by
    rw [List.map_cons, List.nodup_cons] at hnodup
    unfold replaceLoaded
    split
    · rw [List.map_cons, List.nodup_cons]
      refine ⟨?_, hnodup.2⟩
      intro hmem
      obtain ⟨l, hl, hlt⟩ := List.mem_map.mp hmem
      exact hfresh l (List.mem_cons_of_mem _ hl) hlt
    · rw [List.map_cons, List.nodup_cons]
      refine ⟨?_, nodup_titles_replaceLoaded todoListId updated rest hnodup.2
        (fun l hl => hfresh l (List.mem_cons_of_mem _ hl))⟩
      intro hmem
      obtain ⟨l, hl, hlt⟩ := List.mem_map.mp hmem
      rcases mem_replaceLoaded todoListId updated rest l hl with h | h
      · subst h
        exact hfresh x (List.mem_cons_self _ _) hlt.symm
      · exact hnodup.1 (List.mem_map.mpr ⟨l, h, hlt⟩)

/-! ## Deleting a list -/

theorem findIndex_eq_neg_one {β : Type} (p : β → Bool) :
    ∀ (arr : List β), (∀ x ∈ arr, p x = false) → findIndex p arr = -1
  | [], _ => rfl
  | x :: xs, h => by
    have hx : p x = false := h x (List.mem_cons_self _ _)
    have ih := findIndex_eq_neg_one p xs (fun y hy => h y (List.mem_cons_of_mem _ hy))
    simp [findIndex, hx, ih]

theorem splice_neg_one {β : Type} (arr : List β) : splice arr (-1) 1 = arr.dropLast := by
  cases arr with
  | nil => rfl
  | cons x xs =>
    have h1 : (max (((x :: xs).length : Int) + -1) 0).toNat = xs.length := by
      simp
    unfold splice
    simp only [h1]
    simp [List.dropLast_eq_take]

/-- The destroy handler on an id that no list has: it answers with the success
redirect and the last list of the collection is gone. -/
theorem postDestroyList_of_absent (todoLists : List TodoList) (todoListId : Nat)
    (habsent : ∀ l ∈ todoLists, l.id ≠ todoListId) :
    postDestroyList todoLists todoListId =
      (.redirect "/lists" "Todo List deleted!", todoLists.dropLast) := by
  have hidx : findIndex (fun todoList : TodoList => todoList.id == todoListId) todoLists = -1 :=
    findIndex_eq_neg_one _ todoLists (fun l hl => by simpa using habsent l hl)
  simp [postDestroyList, hidx, JSValue.not, JSValue.strictEquals, splice_neg_one]

/-! ## The handlers of the list collection -/

theorem postEditList_of_unique (len : JSString → Nat) (todoLists : List TodoList)
    (todoListId : Nat) (todoListTitle : JSString) (found : TodoList)
    (hfound : loadTodoList todoListId todoLists = some found)
    (hvalid : 1 ≤ len (trim todoListTitle) ∧ len (trim todoListTitle) ≤ 100)
    (hunique : titleIsUnique todoLists (trim todoListTitle) = true) :
    postEditList len todoLists todoListId todoListTitle =
      (.redirect ("/lists/" ++ toString todoListId) "Todo list updated.",
        replaceLoaded todoListId { found with title := trim todoListTitle } todoLists) := by
  have herr := editListErrors_of_valid len todoLists (trim todoListTitle) hvalid
  rw [hunique] at herr
  simp [postEditList, hfound, herr, TodoList.setTitle, trim_trim, hvalid.1, hvalid.2]

theorem postEditList_of_duplicate (len : JSString → Nat) (todoLists : List TodoList)
    (todoListId : Nat) (todoListTitle : JSString) (found : TodoList)
    (hfound : loadTodoList todoListId todoLists = some found)
    (hvalid : 1 ≤ len (trim todoListTitle) ∧ len (trim todoListTitle) ≤ 100)
    (hdup : titleIsUnique todoLists (trim todoListTitle) = false) :
    postEditList len todoLists todoListId todoListTitle =
      (.render "edit-list" ["List title must be unique"], todoLists) := by
  have herr := editListErrors_of_valid len todoLists (trim todoListTitle) hvalid
  rw [hdup] at herr
  simp [postEditList, hfound, herr]

/-- C5 fails on the code: no list has id 7, yet the destroy handler answers with
the success redirect and removes the last list of the collection. -/
theorem postDestroyList_absent_id_deletes_last :
    loadTodoList 7 [appleDone, appleEmpty] = none ∧
    postDestroyList [appleDone, appleEmpty] 7 =
      (.redirect "/lists" "Todo List deleted!", [appleDone]) := by
  decide

/-- C6 as stated fails: no list other than `apple` has the title `apple`, the
title is length-valid, and renaming the list to the title it already has is
rejected as a duplicate. -/
theorem postEditList_rejects_own_title :
    appleEmpty ∈ [appleDone, appleEmpty] ∧
    (∀ l ∈ [appleDone, appleEmpty], l ≠ appleEmpty → l.title ≠ appleEmpty.title) ∧
    (1 ≤ (trim appleEmpty.title).length ∧ (trim appleEmpty.title).length ≤ 100) ∧
    postEditList List.length [appleDone, appleEmpty] appleEmpty.id appleEmpty.title =
      (.render "edit-list" ["List title must be unique"], [appleDone, appleEmpty]) := by
  decide

/-- C6, amended: in the rename handler the uniqueness check compares the new
title against every list of the session, the renamed list included: for a list
`L` of the collection and a length-valid title, the request is rejected as a
duplicate if and only if some list of the collection has exactly that title; in
particular renaming `L` to the title it already has is rejected. -/
theorem postEditList_duplicate_iff (len : JSString → Nat) (todoLists : List TodoList)
    (L : TodoList) (todoListTitle : JSString) (hL : L ∈ todoLists)
    (hvalid : 1 ≤ len (trim todoListTitle) ∧ len (trim todoListTitle) ≤ 100) :
    (postEditList len todoLists L.id todoListTitle =
        (.render "edit-list" ["List title must be unique"], todoLists) ↔
      ∃ l ∈ todoLists, l.title = trim todoListTitle) ∧
    ("List title must be unique" ∈ editListErrors len todoLists (trim todoListTitle) ↔
      ∃ l ∈ todoLists, l.title = trim todoListTitle) ∧
    (trim todoListTitle = L.title →
      postEditList len todoLists L.id todoListTitle =
        (.render "edit-list" ["List title must be unique"], todoLists)) := by
  obtain ⟨found, hfound⟩ := loadTodoList_of_mem todoLists L hL
  have hiff : postEditList len todoLists L.id todoListTitle =
        (.render "edit-list" ["List title must be unique"], todoLists) ↔
      ∃ l ∈ todoLists, l.title = trim todoListTitle := by
    rw [← titleIsUnique_eq_false_iff]
    constructor
    · intro h
      by_contra hu
      rw [Bool.not_eq_false] at hu
      rw [postEditList_of_unique len todoLists L.id todoListTitle found hfound hvalid hu] at h
      have := congrArg Prod.fst h
      exact Response.noConfusion this
    · exact postEditList_of_duplicate len todoLists L.id todoListTitle found hfound hvalid
  refine ⟨hiff, ?_, fun h => hiff.mpr ⟨L, hL, h.symm⟩⟩
  rw [← titleIsUnique_eq_false_iff, editListErrors_of_valid len todoLists _ hvalid]
  cases titleIsUnique todoLists (trim todoListTitle) <;> simp

/-- Witness of the amended C6: renaming `apple` to `Apple`, the title of another
list, and to `apple`, its own title. -/
theorem postEditList_duplicate_iff_witness :
    (postEditList List.length [appleDone, appleEmpty] appleEmpty.id appleDone.title =
        (.render "edit-list" ["List title must be unique"], [appleDone, appleEmpty]) ↔
      ∃ l ∈ [appleDone, appleEmpty], l.title = trim appleDone.title) ∧
    postEditList List.length [appleDone, appleEmpty] appleEmpty.id appleEmpty.title =
      (.render "edit-list" ["List title must be unique"], [appleDone, appleEmpty]) :=
  ⟨(postEditList_duplicate_iff List.length [appleDone, appleEmpty] appleEmpty appleDone.title
      (by decide) (by decide)).1,
    (postEditList_duplicate_iff List.length [appleDone, appleEmpty] appleEmpty appleEmpty.title
      (by decide) (by decide)).2.2 (by decide)⟩

/-- C7: if no two lists of the collection have equal titles, then after a
create-list request and after a rename request, with any submitted title, no two
lists have equal titles; and a request that is not answered with the success
redirect leaves the collection unchanged. -/
theorem title_uniqueness_preserved (len : JSString → Nat) (freshId : Nat)
    (todoLists : List TodoList) (todoListId : Nat) (todoListTitle : JSString)
    (hnodup : (todoLists.map TodoList.title).Nodup) :
    (((postLists len freshId todoLists todoListTitle).2.map TodoList.title).Nodup ∧
      ((postLists len freshId todoLists todoListTitle).1 ≠
          .redirect "/lists" "The todo list has been created." →
        (postLists len freshId todoLists todoListTitle).2 = todoLists)) ∧
    (((postEditList len todoLists todoListId todoListTitle).2.map TodoList.title).Nodup ∧
      ((postEditList len todoLists todoListId todoListTitle).1 ≠
          .redirect ("/lists/" ++ toString todoListId) "Todo list updated." →
        (postEditList len todoLists todoListId todoListTitle).2 = todoLists)) := by
  constructor
  · unfold postLists
    simp only
    cases herr : (newListErrors len todoLists (trim todoListTitle)).isEmpty with
    | false => simp [hnodup]
    | true =>
      have hu := (titleIsUnique_eq_true_iff _ _).mp
        (titleIsUnique_of_newListErrors_nil len todoLists _ (List.isEmpty_iff.mp herr))
      unfold TodoList.create
      rw [trim_trim]
      by_cases hv : 1 ≤ len (trim todoListTitle) ∧ len (trim todoListTitle) ≤ 100
      · simp only [Bool.not_true, Bool.false_eq_true, if_false, if_pos hv, ne_eq,
          not_true_eq_false, false_implies, and_true, List.map_append, List.map_cons,
          List.map_nil]
        rw [List.nodup_append]
        refine ⟨hnodup, List.nodup_singleton _, ?_⟩
        intro t ht ht'
        obtain ⟨l, hl, hlt⟩ := List.mem_map.mp ht
        rw [List.mem_singleton] at ht'
        exact hu l hl (hlt.trans ht')
      · simp [if_neg hv, hnodup]
  · unfold postEditList
    simp only
    cases hfound : loadTodoList todoListId todoLists with
    | none => simp [hnodup]
    | some found =>
      cases herr : (editListErrors len todoLists (trim todoListTitle)).isEmpty with
      | false => simp [hnodup]
      | true =>
        have hu := (titleIsUnique_eq_true_iff _ _).mp
          (titleIsUnique_of_editListErrors_nil len todoLists _ (List.isEmpty_iff.mp herr))
        unfold TodoList.setTitle
        by_cases hv : 1 ≤ len (trim (trim todoListTitle)) ∧ len (trim (trim todoListTitle)) ≤ 100
        · simp only [Bool.not_true, Bool.false_eq_true, if_false, if_pos hv, ne_eq,
            not_true_eq_false, false_implies, and_true]
          exact nodup_titles_replaceLoaded todoListId _ todoLists hnodup hu
        · simp [if_neg hv, hnodup]

/-- Witness of C7: creating `APPLE` and renaming list 2 to `APPLE` in the
collection `Apple`, `apple`. -/
theorem title_uniqueness_preserved_witness :
    ([appleDone, appleEmpty].map TodoList.title).Nodup ∧
    ((postLists List.length 9 [appleDone, appleEmpty] appleUpper.title).2.map
      TodoList.title).Nodup ∧
    ((postEditList List.length [appleDone, appleEmpty] 2 appleUpper.title).2.map
      TodoList.title).Nodup :=
  ⟨by decide,
    (title_uniqueness_preserved List.length 9 [appleDone, appleEmpty] 2 appleUpper.title
      (by decide)).1.1,
    (title_uniqueness_preserved List.length 9 [appleDone, appleEmpty] 2 appleUpper.title
      (by decide)).2.1⟩

end TodoApp
